import Mathlib

/-!
Shallow embedding of the core of the forex trading bot: the SMC signal
detector (src/core/smc_strategy.py), the enhanced risk manager
(src/core/enhanced_risk_manager.py) and the backtest replay engine
(src/backtesting/backtest_engine.py).

Python floats are modelled as exact rationals, Python lists as `List`,
ad-hoc dicts as structures, and the wall-clock reads (datetime.now())
are passed in explicitly as a calendar-day ordinal, an ISO-week ordinal
and minutes-of-day.  Fallible detectors return `Option`.
-/

namespace ForexBot

/-- One OHLCV bar (Python dict with keys timestamp/open/high/low/close/volume;
the field open_price models the key named open, a Lean keyword). -/
structure Candle where
  timestamp : Int
  open_price : ℚ
  high : ℚ
  low : ℚ
  close : ℚ
  volume : ℚ
deriving DecidableEq

/-- Placeholder bar used for list accesses that the source guards by length checks. -/
def dummyCandle : Candle :=
  { timestamp := 0, open_price := 0, high := 0, low := 0, close := 0, volume := 0 }

/-- Python max over a list of floats (the source only applies it to nonempty lists). -/
def maxQ : List ℚ → ℚ
  | [] => 0
  | x :: xs => xs.foldl max x

/-- Python min over a list of floats (the source only applies it to nonempty lists). -/
def minQ : List ℚ → ℚ
  | [] => 0
  | x :: xs => xs.foldl min x

/-- Python slice l[-n:] (Nat subtraction saturates exactly like the Python clamp). -/
def lastN (l : List α) (n : ℕ) : List α := l.drop (l.length - n)

/-- Python slice l[:-n]. -/
def dropLastN (l : List α) (n : ℕ) : List α := l.take (l.length - n)

/-- Python slice l[a:b] for nonnegative bounds. -/
def pySlice (l : List α) (a b : ℕ) : List α := (l.take b).drop a

/-- Python range(a, b). -/
def pyRange (a b : ℕ) : List ℕ := List.range' a (b - a)

/-- Python range(start, stop, -1): start, start-1, ..., stop+1 (empty if start ≤ stop). -/
def pyRangeDown (start stop : Int) : List Int :=
  (List.range (start - stop).toNat).map (fun k => start - k)

/-- StructureType enum from src/core/smc_strategy.py. -/
inductive StructureType
  | higher_high
  | higher_low
  | lower_low
  | lower_high
deriving DecidableEq

/-- EntryZoneType enum from src/core/smc_strategy.py. -/
inductive EntryZoneType
  | fvg
  | discount_zone
  | order_block
  | equal_high_low
deriving DecidableEq

/-- BreakOfStructure dataclass. -/
structure BreakOfStructure where
  timestamp : Int
  price : ℚ
  structure_type : StructureType
  strength : ℚ
  higher_low : Option ℚ
  lower_high : Option ℚ
deriving DecidableEq

/-- PullbackZone dataclass. -/
structure PullbackZone where
  timestamp : Int
  entry_price : ℚ
  zone_high : ℚ
  zone_low : ℚ
  confidence : ℚ
deriving DecidableEq

/-- SMCEntrySignal dataclass. -/
structure SMCEntrySignal where
  timestamp : Int
  entry_price : ℚ
  entry_zone_type : EntryZoneType
  stop_loss : ℚ
  target_price : ℚ
  risk_reward_ratio : ℚ
  bos : BreakOfStructure
  pullback_zone : PullbackZone
  strength : ℚ
deriving DecidableEq

/-- SMCAnalyzer.detect_break_of_structure. -/
def detect_break_of_structure (candles : List Candle) : Option BreakOfStructure :=
  if candles.length < 10 then none else
  let recent := lastN candles 20
  let current_price := (candles.getLastD dummyCandle).close
  let structure_candles := lastN recent 15
  let s_highs := structure_candles.map (fun c => c.high)
  let s_lows := structure_candles.map (fun c => c.low)
  let max_high := maxQ (dropLastN s_highs 2)
  let min_low := minQ (dropLastN s_lows 2)
  if current_price > max_high * 1.0007 then
    let recent_low := minQ ((lastN recent 5).map (fun c => c.low))
    let strength := min ((current_price - max_high) / (max_high * 0.007)) 1
    some { timestamp := (candles.getLastD dummyCandle).timestamp
           price := current_price
           structure_type := StructureType.higher_high
           strength := min strength 1
           higher_low := some recent_low
           lower_high := none }
  else if current_price < min_low * 0.9993 then
    let recent_high := maxQ ((lastN recent 5).map (fun c => c.high))
    let strength := min ((min_low - current_price) / (min_low * 0.007)) 1
    some { timestamp := (candles.getLastD dummyCandle).timestamp
           price := current_price
           structure_type := StructureType.lower_low
           strength := min strength 1
           higher_low := none
           lower_high := some recent_high }
  else none

/-- SMCAnalyzer.identify_fair_value_gap.  The loop over
range(len(candles)-3, max(len(candles)-5, 1), -1) visits the last at most two
3-bar windows; a window whose gap is too small falls through to the next check. -/
def identify_fair_value_gap (candles : List Candle) :
    Option (ℚ × ℚ × EntryZoneType) :=
  if candles.length < 3 then none else
  let n : Int := candles.length
  (pyRangeDown (n - 3) (max (n - 5) 1)).findSome? (fun i =>
    let recent := pySlice candles i.toNat (i.toNat + 3)
    if recent.length < 3 then none else
    let current_price := (candles.getLastD dummyCandle).close
    let min_gap_size := current_price * 0.001
    let r0 := recent.getD 0 dummyCandle
    let r2 := recent.getD 2 dummyCandle
    if r0.high < r2.low ∧ r2.low - r0.high ≥ min_gap_size then
      some (r0.high, r2.low, EntryZoneType.fvg)
    else if r2.high < r0.low ∧ r0.low - r2.high ≥ min_gap_size then
      some (r2.high, r0.low, EntryZoneType.fvg)
    else none)

/-- SMCAnalyzer.identify_order_block. -/
def identify_order_block (candles : List Candle) : Option (ℚ × ℚ) :=
  if candles.length < 8 then none else
  (pyRange (candles.length - 8) (candles.length - 2)).findSome? (fun i =>
    if i < 1 then none else
    let prev := candles.getD (i - 1) dummyCandle
    let curr := candles.getD i dummyCandle
    let prev_range := prev.high - prev.low
    let curr_range := curr.high - curr.low
    if prev.close > prev.open_price ∧ curr.close < curr.open_price ∧
        curr_range > prev_range * 0.6 ∧ curr.close < prev.close * 0.998 then
      some (prev.open_price, curr.high * 1.001)
    else if prev.close < prev.open_price ∧ curr.close > curr.open_price ∧
        curr_range > prev_range * 0.6 ∧ curr.close > prev.close * 1.002 then
      some (curr.low * 0.999, prev.open_price)
    else none)

/-- SMCAnalyzer.identify_discount_zone. -/
def identify_discount_zone (candles : List Candle) : Option (ℚ × ℚ) :=
  if candles.length < 25 then none else
  let recent := lastN candles 25
  let current_price := (candles.getLastD dummyCandle).close
  let lookback := lastN recent 20
  let lows := lookback.map (fun c => c.low)
  let highs := lookback.map (fun c => c.high)
  let previous_low := minQ (dropLastN lows 5)
  let previous_high := maxQ (dropLastN highs 5)
  let move_range := previous_high - previous_low
  let retrace_start := previous_high - move_range * 0.25
  let retrace_end := previous_high - move_range * 0.75
  if retrace_end ≤ current_price ∧ current_price ≤ retrace_start then
    some (retrace_end * 0.995, retrace_start * 1.005)
  else none

/-- SMCAnalyzer.generate_entry_signal: BOS, then a volatility pullback,
then FVG / order block / discount zone, then SL/TP at a 2.0 multiple,
gated by risk-reward at least 1.5 and strength at least 0.65. -/
def generate_entry_signal (candles : List Candle) : Option SMCEntrySignal :=
  if candles.length < 20 then none else
  match detect_break_of_structure candles with
  | none => none
  | some bos =>
    let lastC := candles.getLastD dummyCandle
    let recent := lastN candles 5
    let high := maxQ (recent.map (fun c => c.high))
    let low := minQ (recent.map (fun c => c.low))
    let pullback_size := high - low
    if pullback_size < lastC.close * 0.0002 then none else
    let pullback : PullbackZone :=
      { timestamp := lastC.timestamp, entry_price := lastC.close
        zone_high := high, zone_low := low, confidence := 0.75 }
    let current_price := lastC.close
    let zone : Option (ℚ × ℚ × EntryZoneType) :=
      match identify_fair_value_gap candles with
      | some f => some f
      | none =>
        match identify_order_block candles with
        | some (lo, hi) => some (lo, hi, EntryZoneType.order_block)
        | none =>
          match identify_discount_zone candles with
          | some (lo, hi) => some (lo, hi, EntryZoneType.discount_zone)
          | none => none
    match zone with
    | none => none
    | some (entry_low, entry_high, entry_zone_type) =>
      let stop_loss :=
        if bos.structure_type = StructureType.higher_high then entry_low * 0.998
        else entry_high * 1.002
      let target_price :=
        if bos.structure_type = StructureType.higher_high then
          current_price + (current_price - stop_loss) * 2
        else current_price - (stop_loss - current_price) * 2
      let risk := |current_price - stop_loss|
      let reward := |target_price - current_price|
      let rr_ratio := if risk > 0 then reward / risk else 0
      if rr_ratio < 1.5 then none else
      let strength := min (bos.strength * 0.6 + pullback.confidence * 0.4) 1
      if strength < 0.65 then none else
      some { timestamp := lastC.timestamp
             entry_price := current_price
             entry_zone_type := entry_zone_type
             stop_loss := stop_loss
             target_price := target_price
             risk_reward_ratio := rr_ratio
             bos := bos
             pullback_zone := pullback
             strength := strength }

/-- SMCAnalyzer.analyze. -/
def analyze (candles : List Candle) : Option SMCEntrySignal :=
  generate_entry_signal candles

/-- TradingSession enum from src/core/enhanced_risk_manager.py. -/
inductive TradingSession
  | london
  | new_york
  | tokyo
  | sydney
deriving DecidableEq

/-- SessionTime dataclass (session window in UTC). -/
structure SessionTime where
  name : TradingSession
  start_hour : ℕ
  start_minute : ℕ
  end_hour : ℕ
  end_minute : ℕ
  tz : String
deriving DecidableEq

/-- The SESSIONS table. -/
def SESSIONS : TradingSession → SessionTime
  | TradingSession.london => ⟨TradingSession.london, 8, 0, 17, 0, "UTC"⟩
  | TradingSession.new_york => ⟨TradingSession.new_york, 13, 0, 22, 0, "UTC"⟩
  | TradingSession.tokyo => ⟨TradingSession.tokyo, 0, 0, 9, 0, "UTC"⟩
  | TradingSession.sydney => ⟨TradingSession.sydney, 22, 0, 7, 0, "UTC"⟩

/-- State of an EnhancedRiskManager instance.  daily_reset_day models
daily_reset_time.date() as a day ordinal; weekly_reset_week models
weekly_reset_time.isocalendar()[1]. -/
structure EnhancedRiskManager where
  account_balance : ℚ
  risk_per_trade : ℚ
  max_daily_loss : ℚ
  max_weekly_loss : ℚ
  max_trades_per_day : ℕ
  allowed_sessions : List TradingSession
  risk_amount : ℚ
  daily_pnl : ℚ
  daily_trades_count : ℕ
  daily_reset_day : Int
  weekly_pnl : ℚ
  weekly_reset_week : Int
deriving DecidableEq

/-- EnhancedRiskManager.__init__ (now_day/now_week model datetime.now()).
Python uses the truthiness idiom allowed_sessions or [LONDON, NEW_YORK],
so an empty list also selects the default pair. -/
def mkEnhancedRiskManager (account_balance risk_per_trade max_daily_loss max_weekly_loss : ℚ)
    (max_trades_per_day : ℕ) (allowed_sessions : List TradingSession)
    (now_day now_week : Int) : EnhancedRiskManager :=
  { account_balance := account_balance
    risk_per_trade := risk_per_trade
    max_daily_loss := max_daily_loss
    max_weekly_loss := max_weekly_loss
    max_trades_per_day := max_trades_per_day
    allowed_sessions :=
      if allowed_sessions.isEmpty then [TradingSession.london, TradingSession.new_york]
      else allowed_sessions
    risk_amount := account_balance * risk_per_trade / 100
    daily_pnl := 0
    daily_trades_count := 0
    daily_reset_day := now_day
    weekly_pnl := 0
    weekly_reset_week := now_week }

/-- EnhancedRiskManager.is_session_active (now_minutes is the UTC minute of day). -/
def is_session_active (session : TradingSession) (now_minutes : ℕ) : Bool :=
  let session_time := SESSIONS session
  let session_start := session_time.start_hour * 60 + session_time.start_minute
  let session_end := session_time.end_hour * 60 + session_time.end_minute
  if session_start > session_end then
    decide (now_minutes ≥ session_start ∨ now_minutes < session_end)
  else
    decide (session_start ≤ now_minutes ∧ now_minutes < session_end)

/-- EnhancedRiskManager.can_trade_in_session. -/
def can_trade_in_session (rm : EnhancedRiskManager) (now_minutes : ℕ) : Bool :=
  rm.allowed_sessions.any (fun s => is_session_active s now_minutes)

/-- EnhancedRiskManager.reset_daily_limits. -/
def reset_daily_limits (rm : EnhancedRiskManager) (now_day : Int) : EnhancedRiskManager :=
  if now_day > rm.daily_reset_day then
    { rm with daily_pnl := 0, daily_trades_count := 0, daily_reset_day := now_day }
  else rm

/-- EnhancedRiskManager.reset_weekly_limits. -/
def reset_weekly_limits (rm : EnhancedRiskManager) (now_week : Int) : EnhancedRiskManager :=
  if now_week > rm.weekly_reset_week then
    { rm with weekly_pnl := 0, weekly_reset_week := now_week }
  else rm

/-- The dict returned by EnhancedRiskManager.can_open_trade. -/
structure TradeChecks where
  session_active : Bool
  daily_limit_ok : Bool
  weekly_limit_ok : Bool
  daily_trades_ok : Bool
deriving DecidableEq

/-- all(checks.values()) for a TradeChecks dict. -/
def TradeChecks.all (c : TradeChecks) : Bool :=
  c.session_active && c.daily_limit_ok && c.weekly_limit_ok && c.daily_trades_ok

/-- EnhancedRiskManager.can_open_trade: resets the daily/weekly counters
for rollovers, then reports the four advisory checks.  The first component
is the risk manager after its self-mutation by the resets. -/
def can_open_trade (rm : EnhancedRiskManager) (now_day now_week : Int)
    (now_minutes : ℕ) : EnhancedRiskManager × TradeChecks :=
  let rm1 := reset_weekly_limits (reset_daily_limits rm now_day) now_week
  (rm1,
   { session_active := can_trade_in_session rm1 now_minutes
     daily_limit_ok :=
       decide (|rm1.daily_pnl| < rm1.account_balance * rm1.max_daily_loss / 100)
     weekly_limit_ok :=
       decide (|rm1.weekly_pnl| < rm1.account_balance * rm1.max_weekly_loss / 100)
     daily_trades_ok := decide (rm1.daily_trades_count < rm1.max_trades_per_day) })

/-- EnhancedRiskManager.calculate_position_size: the dollar amount at risk,
not a unit count; 0 when the stop distance is zero. -/
def calculate_position_size (rm : EnhancedRiskManager) (entry_price stop_loss : ℚ) : ℚ :=
  let risk_pips := |entry_price - stop_loss|
  if risk_pips = 0 then 0 else rm.risk_amount

/-- The dict returned by EnhancedRiskManager.validate_trade. -/
structure ValidationChecks where
  rr_ratio_ok : Bool
  risk_reasonable : Bool
  stop_loss_set : Bool
  target_set : Bool
deriving DecidableEq

/-- all(validation.values()) for a ValidationChecks dict. -/
def ValidationChecks.all (v : ValidationChecks) : Bool :=
  v.rr_ratio_ok && v.risk_reasonable && v.stop_loss_set && v.target_set

/-- EnhancedRiskManager.validate_trade. -/
def validate_trade (entry_price stop_loss target_price : ℚ) : ValidationChecks :=
  let risk := |entry_price - stop_loss|
  let reward := |target_price - entry_price|
  let rr_ratio := if risk > 0 then reward / risk else 0
  { rr_ratio_ok := decide (rr_ratio ≥ 1.5)
    risk_reasonable := decide (risk ≤ entry_price * 0.05)
    stop_loss_set := decide (stop_loss ≠ 0)
    target_set := decide (target_price ≠ 0) }

/-- EnhancedRiskManager.record_trade_outcome. -/
def record_trade_outcome (rm : EnhancedRiskManager) (pnl : ℚ)
    (now_day now_week : Int) : EnhancedRiskManager :=
  let rm1 := reset_weekly_limits (reset_daily_limits rm now_day) now_week
  let new_balance := rm1.account_balance + pnl
  { rm1 with
    daily_pnl := rm1.daily_pnl + pnl
    weekly_pnl := rm1.weekly_pnl + pnl
    daily_trades_count := rm1.daily_trades_count + 1
    account_balance := new_balance
    risk_amount := new_balance * rm1.risk_per_trade / 100 }

/-- The trade dict built by BacktestEngine._open_trade, with the exit keys
that _close_trade adds modelled as Options. -/
structure Trade where
  id : String
  symbol : String
  index : ℕ
  entry_time : Int
  entry_price : ℚ
  stop_loss : ℚ
  take_profit : ℚ
  quantity : ℚ
  risk_reward_ratio : ℚ
  entry_zone_type : EntryZoneType
  bos_strength : ℚ
  pullback_confidence : ℚ
  signal_strength : ℚ
  risk_amount : ℚ
  reward_amount : ℚ
  status : String
  account_balance_at_entry : ℚ
  exit_price : Option ℚ
  exit_reason : Option String
  pnl : Option ℚ
  pnl_percent : Option ℚ
deriving DecidableEq

/-- Placeholder trade (used only as a getD default in concrete witnesses). -/
def dummyTrade : Trade :=
  { id := "", symbol := "", index := 0, entry_time := 0, entry_price := 0
    stop_loss := 0, take_profit := 0, quantity := 0, risk_reward_ratio := 0
    entry_zone_type := EntryZoneType.fvg, bos_strength := 0, pullback_confidence := 0
    signal_strength := 0, risk_amount := 0, reward_amount := 0, status := ""
    account_balance_at_entry := 0, exit_price := none, exit_reason := none
    pnl := none, pnl_percent := none }

/-- Mutable state of a BacktestEngine instance: the balances, the single
active-trade slot, the closed-trades list and the embedded risk manager. -/
structure BTState where
  account_balance : ℚ
  initial_balance : ℚ
  risk_per_trade : ℚ
  current_balance : ℚ
  trades : List Trade
  active_trade : Option Trade
  rm : EnhancedRiskManager
deriving DecidableEq

/-- BacktestEngine.__init__ (passes allowed_sessions=[] to the risk manager). -/
def initBTState (account_balance risk_per_trade : ℚ) (now_day now_week : Int) : BTState :=
  { account_balance := account_balance
    initial_balance := account_balance
    risk_per_trade := risk_per_trade
    current_balance := account_balance
    trades := []
    active_trade := none
    rm := mkEnhancedRiskManager account_balance risk_per_trade 1.5 3 2 [] now_day now_week }

/-- BacktestEngine._open_trade: validate, size, then build the trade dict. -/
def _open_trade (rm : EnhancedRiskManager) (symbol : String) (signal : SMCEntrySignal)
    (candle : Candle) (index : ℕ) (current_balance : ℚ) : Option Trade :=
  let validation := validate_trade signal.entry_price signal.stop_loss signal.target_price
  if ¬ validation.all then none else
  let position_size := calculate_position_size rm signal.entry_price signal.stop_loss
  if position_size ≤ 0 then none else
  let risk := |signal.entry_price - signal.stop_loss|
  let reward := |signal.target_price - signal.entry_price|
  some { id := "BT_" ++ symbol ++ "_" ++ toString index
         symbol := symbol
         index := index
         entry_time := candle.timestamp
         entry_price := signal.entry_price
         stop_loss := signal.stop_loss
         take_profit := signal.target_price
         quantity := position_size
         risk_reward_ratio := signal.risk_reward_ratio
         entry_zone_type := signal.entry_zone_type
         bos_strength := signal.bos.strength
         pullback_confidence := signal.pullback_zone.confidence
         signal_strength := signal.strength
         risk_amount := risk * position_size
         reward_amount := reward * position_size
         status := "open"
         account_balance_at_entry := current_balance
         exit_price := none
         exit_reason := none
         pnl := none
         pnl_percent := none }

/-- BacktestEngine._close_trade: stop = -risk dollars, target =
risk dollars times (RR - 1); appends the closed trade and clears the slot. -/
def _close_trade (st : BTState) (exit_price : ℚ) (exit_reason : String)
    (now_day now_week : Int) : BTState :=
  match st.active_trade with
  | none => st
  | some t =>
    let risk_dollars := t.quantity
    let pnl : ℚ :=
      if exit_reason = "stop_loss" then -risk_dollars
      else if exit_reason = "take_profit" then risk_dollars * (t.risk_reward_ratio - 1)
      else 0
    let pnl_percent := if st.initial_balance ≠ 0 then pnl / st.initial_balance * 100 else 0
    let closed : Trade :=
      { t with exit_price := some exit_price, exit_reason := some exit_reason
               pnl := some pnl, pnl_percent := some pnl_percent, status := "closed" }
    { st with current_balance := st.current_balance + pnl
              rm := record_trade_outcome st.rm pnl now_day now_week
              trades := st.trades ++ [closed]
              active_trade := none }

/-- BacktestEngine._check_trade_exit: the stop check comes first, the target
check only in the elif branch. -/
def _check_trade_exit (st : BTState) (current_candle : Candle)
    (now_day now_week : Int) : BTState :=
  match st.active_trade with
  | none => st
  | some t =>
    if current_candle.low ≤ t.stop_loss then
      _close_trade st t.stop_loss "stop_loss" now_day now_week
    else if current_candle.high ≥ t.take_profit then
      _close_trade st t.take_profit "take_profit" now_day now_week
    else st

/-- The body of the signal branch of BacktestEngine.backtest_symbol:
on a signal with RR at least 1.5, attempt _open_trade and fill the slot. -/
def try_open (st : BTState) (symbol : String) (signal : SMCEntrySignal)
    (candle : Candle) (index : ℕ) : BTState :=
  if signal.risk_reward_ratio ≥ 1.5 then
    match _open_trade st.rm symbol signal candle index st.current_balance with
    | some t => { st with active_trade := some t }
    | none => st
  else st

/-- One iteration of the backtest_symbol loop at index i: exit-check the
active trade against the current candle, then look for an entry on the
trailing 51-bar window if the slot is empty. -/
def stepCandle (symbol : String) (candles : List Candle) (now_day now_week : Int)
    (st : BTState) (i : ℕ) : BTState :=
  let current_candle := candles.getD i dummyCandle
  let lookback_candles := pySlice candles (i - 50) (i + 1)
  let st1 := if st.active_trade.isSome then _check_trade_exit st current_candle now_day now_week else st
  if st1.active_trade = none then
    match analyze lookback_candles with
    | some signal => try_open st1 symbol signal current_candle i
    | none => st1
  else st1

/-- The index sequence of the backtest_symbol loop: start_index to len-1. -/
def bsIndices (candles : List Candle) (start_index : ℕ) : List ℕ :=
  List.range' start_index (candles.length - start_index)

/-- BacktestEngine.backtest_symbol as a fold of stepCandle over the index range. -/
def backtest_symbol (symbol : String) (candles : List Candle) (start_index : ℕ)
    (now_day now_week : Int) (st : BTState) : BTState :=
  (bsIndices candles start_index).foldl (stepCandle symbol candles now_day now_week) st

/-- BacktestEngine.backtest: replay each listed symbol in order (skipping
symbols without data) through the engine state, with the default warmup 100. -/
def backtest (symbols : List String) (historical_data : String → Option (List Candle))
    (now_day now_week : Int) (st : BTState) : BTState :=
  symbols.foldl (fun s sym =>
    match historical_data sym with
    | none => s
    | some candles => backtest_symbol sym candles 100 now_day now_week s) st

/-- Stable insertion step for Python sorted(key=entry_time). -/
def sortInsert (t : Trade) : List Trade → List Trade
  | [] => [t]
  | u :: us => if t.entry_time ≤ u.entry_time then t :: u :: us else u :: sortInsert t us

/-- Python sorted(trades, key=entry_time) (stable). -/
def sortByEntryTime : List Trade → List Trade
  | [] => []
  | t :: ts => sortInsert t (sortByEntryTime ts)

/-- The loop of _calculate_equity_curve: append the running balance after
each closed trade. -/
def equityFold : List Trade → ℚ → List ℚ
  | [], _ => []
  | t :: ts, balance =>
    if t.status = "closed" then
      (balance + t.pnl.getD 0) :: equityFold ts (balance + t.pnl.getD 0)
    else equityFold ts balance

/-- BacktestEngine._calculate_equity_curve: seeded with the engine's
account_balance, then one point per closed trade in entry-time order. -/
def _calculate_equity_curve (st : BTState) : List ℚ :=
  st.account_balance :: equityFold (sortByEntryTime st.trades) st.account_balance

/-- The loop of _calculate_drawdown with its running peak. -/
def ddFold : List ℚ → ℚ → List ℚ
  | [], _ => []
  | e :: es, peak =>
    let peak1 := if e > peak then e else peak
    (if peak1 > 0 then (peak1 - e) / peak1 * 100 else 0) :: ddFold es peak1

/-- BacktestEngine._calculate_drawdown. -/
def _calculate_drawdown (st : BTState) : List ℚ :=
  let equity := _calculate_equity_curve st
  ddFold equity (equity.headD 0)

/-- Engine-state well-formedness: every recorded trade is closed and the
active slot, when filled, holds an open trade.  Holds for the initial
engine state and is preserved by every replay step. -/
def EngineInv (st : BTState) : Prop :=
  (∀ t ∈ st.trades, t.status = "closed") ∧
  (∀ t, st.active_trade = some t → t.status = "open")

/-- Number of positions recorded as open for one symbol: the active slot
plus any open entries of the closed-trades list. -/
def openTradesCount (st : BTState) (symbol : String) : ℕ :=
  (match st.active_trade with
   | some t => if t.symbol == symbol && t.status == "open" then 1 else 0
   | none => 0) +
  (st.trades.filter (fun t => t.symbol == symbol && t.status == "open")).length

/-- Number of positions recorded as open across all symbols. -/
def openCountAll (st : BTState) : ℕ :=
  (match st.active_trade with
   | some t => if t.status == "open" then 1 else 0
   | none => 0) +
  (st.trades.filter (fun t => t.status == "open")).length

/-- Risk-reward bookkeeping of an emitted signal: the stored ratio is the
reward distance over the risk distance, and it is at least the 1.5 floor. -/
def SignalRRSpec (s : SMCEntrySignal) : Prop :=
  s.risk_reward_ratio = |s.target_price - s.entry_price| / |s.entry_price - s.stop_loss| ∧
  (1.5 : ℚ) ≤ s.risk_reward_ratio

/-- Risk-reward bookkeeping of a recorded trade (same shape as SignalRRSpec). -/
def TradeRRSpec (t : Trade) : Prop :=
  t.risk_reward_ratio = |t.take_profit - t.entry_price| / |t.entry_price - t.stop_loss| ∧
  (1.5 : ℚ) ≤ t.risk_reward_ratio

/-- Every recorded trade and the active trade satisfy TradeRRSpec. -/
def TradeRRInv (st : BTState) : Prop :=
  (∀ t ∈ st.trades, TradeRRSpec t) ∧
  (∀ t, st.active_trade = some t → TradeRRSpec t)

/-- The closed trades in entry-time order: the list the equity curve walks. -/
def closedSortedTrades (st : BTState) : List Trade :=
  (sortByEntryTime st.trades).filter (fun t => t.status == "closed")

/-- Running maximum over the first k+1 equity points. -/
def runningPeak (equity : List ℚ) (k : ℕ) : ℚ := maxQ (equity.take (k + 1))

/-- Spec-side accumulation of trade P&L onto a running balance. -/
def accPnl : List Trade → ℚ → List ℚ
  | [], _ => []
  | t :: ts, b => (b + t.pnl.getD 0) :: accPnl ts (b + t.pnl.getD 0)

/-- A flat synthetic bar at price level 100, used by concrete replays. -/
def flatCandle (k : ℕ) : Candle :=
  { timestamp := (k : Int), open_price := 99.8, high := 100, low := 99.5, close := 99.8, volume := 0 }

/-- Bar 100 of the concrete replay: breaks structure upward and leaves a
bullish fair value gap against bar 98. -/
def spikeCandle : Candle :=
  { timestamp := 100, open_price := 101.6, high := 102.5, low := 101.5, close := 102, volume := 0 }

/-- Bar 101 of the concrete replay: its low pierces the stop of the trade
opened on bar 100. -/
def dropCandle : Candle :=
  { timestamp := 101, open_price := 99.5, high := 99.6, low := 99, close := 99.45, volume := 0 }

/-- A 102-bar series: 100 flat warmup bars, then the spike and the stop-run. -/
def demoCandles : List Candle :=
  ((List.range 100).map flatCandle) ++ [spikeCandle, dropCandle]

/-- Historical data map offering demoCandles for EURUSD only. -/
def demoData : String → Option (List Candle) :=
  fun s => if s = "EURUSD" then some demoCandles else none

/-- The engine state after a full backtest of demoCandles. -/
def demoRun : BTState := backtest ["EURUSD"] demoData 0 0 (initBTState 10000 1 0 0)

/-- The single closed trade the demo replay records. -/
def demoTrade : Trade := demoRun.trades.headD dummyTrade

/-- The three bars of the C5 scenario: bar 0 high 1.1000, bar 2 low 1.1050. -/
def c5_bar0 : Candle :=
  { timestamp := 0, open_price := 1.0950, high := 1.1000, low := 1.0900, close := 1.0950, volume := 1 }

/-- Middle bar of the C5 scenario. -/
def c5_bar1 : Candle :=
  { timestamp := 1, open_price := 1.1000, high := 1.1020, low := 1.0990, close := 1.1010, volume := 1 }

/-- Final bar of the C5 scenario (low 1.1050 leaves the gap unfilled). -/
def c5_bar2 : Candle :=
  { timestamp := 2, open_price := 1.1060, high := 1.1100, low := 1.1050, close := 1.1060, volume := 1 }

/-- A neutral bar used to pad the C5 scenario to the detector's working range. -/
def c5_pad : Candle :=
  { timestamp := 0, open_price := 1.0950, high := 1.0960, low := 1.0940, close := 1.0950, volume := 1 }

/-- Five bars whose final three form the C5 gap pattern. -/
def c5_five : List Candle := [c5_pad, c5_pad, c5_bar0, c5_bar1, c5_bar2]

/-- A concrete open trade risking 100 dollars at risk-reward 3
(entry 1.0850, stop 1.0800, 50-pip risk). -/
def c6_trade : Trade :=
  { id := "BT_EURUSD_100", symbol := "EURUSD", index := 100, entry_time := 100
    entry_price := 1.0850, stop_loss := 1.0800, take_profit := 1.1000
    quantity := 100, risk_reward_ratio := 3, entry_zone_type := EntryZoneType.fvg
    bos_strength := 1, pullback_confidence := 0.75, signal_strength := 0.9
    risk_amount := 0.5, reward_amount := 1.5, status := "open"
    account_balance_at_entry := 10000, exit_price := none, exit_reason := none
    pnl := none, pnl_percent := none }

/-- A fresh engine holding c6_trade in its active slot. -/
def c6_state : BTState :=
  { initBTState 10000 1 0 0 with active_trade := some c6_trade }

/-- A risk-manager state whose daily and weekly loss caps are already hit
(running P&L -200 against caps of 150 and 300 on a 10000 balance). -/
def c9_rm : EnhancedRiskManager :=
  { account_balance := 10000, risk_per_trade := 1, max_daily_loss := 1.5
    max_weekly_loss := 3, max_trades_per_day := 2
    allowed_sessions := [TradingSession.london, TradingSession.new_york]
    risk_amount := 100, daily_pnl := -200, daily_trades_count := 1
    daily_reset_day := 0, weekly_pnl := -320, weekly_reset_week := 0 }

/-- The break of structure carried by the concrete signal. -/
def c9_bos : BreakOfStructure :=
  { timestamp := 100, price := 102, structure_type := StructureType.higher_high
    strength := 1, higher_low := some 99.5, lower_high := none }

/-- The pullback zone carried by the concrete signal. -/
def c9_pb : PullbackZone :=
  { timestamp := 100, entry_price := 102, zone_high := 102.5, zone_low := 99.5, confidence := 0.75 }

/-- A concrete valid entry signal (entry 102, stop 99.8, target 106.4, RR 2). -/
def c9_signal : SMCEntrySignal :=
  { timestamp := 100, entry_price := 102, entry_zone_type := EntryZoneType.fvg
    stop_loss := 99.8, target_price := 106.4, risk_reward_ratio := 2
    bos := c9_bos, pullback_zone := c9_pb, strength := 0.9 }

/-- Two closed trades used to exercise the equity and drawdown curves. -/
def c8_tradeA : Trade :=
  { dummyTrade with id := "a", entry_time := 1, status := "closed", pnl := some (-100) }

/-- Second closed trade of the equity-curve example (entered later, won 200). -/
def c8_tradeB : Trade :=
  { dummyTrade with id := "b", entry_time := 2, status := "closed", pnl := some 200 }

/-- An engine state holding the two closed example trades out of order. -/
def c8_state : BTState :=
  { initBTState 10000 1 0 0 with trades := [c8_tradeB, c8_tradeA] }

/-- A bar that pierces both the stop and the target of c6_trade. -/
def c3_candle : Candle :=
  { timestamp := 101, open_price := 1.09, high := 1.2, low := 1.0, close := 1.1, volume := 0 }

/-- A degenerate signal whose entry price equals its stop loss. -/
def c7_sig : SMCEntrySignal :=
  { timestamp := 100, entry_price := 1.1, entry_zone_type := EntryZoneType.fvg
    stop_loss := 1.1, target_price := 1.2, risk_reward_ratio := 0
    bos := c9_bos, pullback_zone := c9_pb, strength := 0.9 }

/-- A signal with zero risk distance fails validate_trade (its recomputed
risk-reward ratio is 0, below the 1.5 floor). -/
theorem validate_trade_all_false_of_eq (e s tgt : ℚ) (h : e = s) :
    (validate_trade e s tgt).all = false := by
  subst h
  unfold validate_trade ValidationChecks.all
  simp only [sub_self, abs_zero, lt_self_iff_false, if_false]
  norm_num

/-- Fields of the trade built by _open_trade come from the signal and the
position sizing. -/
theorem open_trade_fields (rm : EnhancedRiskManager) (sym : String)
    (sig : SMCEntrySignal) (c : Candle) (i : ℕ) (b : ℚ) (t : Trade)
    (h : _open_trade rm sym sig c i b = some t) :
    t.quantity = calculate_position_size rm sig.entry_price sig.stop_loss ∧
    t.risk_reward_ratio = sig.risk_reward_ratio ∧
    t.entry_price = sig.entry_price ∧ t.stop_loss = sig.stop_loss ∧
    t.take_profit = sig.target_price ∧ t.status = "open" := by
  unfold _open_trade at h
  dsimp only at h
  split at h
  · exact absurd h (by simp)
  · split at h
    · exact absurd h (by simp)
    · obtain rfl := Option.some.inj h
      exact ⟨rfl, rfl, rfl, rfl, rfl, rfl⟩

/-- C2: a trade closed with exit_reason stop_loss records pnl equal to minus
its quantity (the dollars at risk captured at entry), and a trade closed with
take_profit records pnl equal to quantity times (risk_reward_ratio - 1), the
ratio captured from the signal at entry by _open_trade. -/
theorem C2_close_pnl (st : BTState) (t : Trade) (h : st.active_trade = some t)
    (p q : ℚ) (now_day now_week : Int) :
    (∃ tc, (_close_trade st p "stop_loss" now_day now_week).trades = st.trades ++ [tc] ∧
      tc.exit_reason = some "stop_loss" ∧ tc.pnl = some (-t.quantity)) ∧
    (∃ tc, (_close_trade st q "take_profit" now_day now_week).trades = st.trades ++ [tc] ∧
      tc.exit_reason = some "take_profit" ∧
      tc.pnl = some (t.quantity * (t.risk_reward_ratio - 1))) ∧
    (∀ rm sym sig c i b t0, _open_trade rm sym sig c i b = some t0 →
      t0.quantity = calculate_position_size rm sig.entry_price sig.stop_loss ∧
      t0.risk_reward_ratio = sig.risk_reward_ratio) := by
  refine ⟨?_, ?_, ?_⟩
  · simp only [_close_trade, h]
    exact ⟨_, rfl, by simp, by simp⟩
  · simp only [_close_trade, h]
    exact ⟨_, rfl, by simp, by simp⟩
  · intro rm sym sig c i b t0 h0
    exact ⟨(open_trade_fields rm sym sig c i b t0 h0).1,
           (open_trade_fields rm sym sig c i b t0 h0).2.1⟩

/-- C2 witness: closing the concrete trade c6_trade (quantity 100, RR 3)
via stop_loss appends a record with pnl -100. -/
theorem C2_witness :
    ∃ tc, (_close_trade c6_state 1.08 "stop_loss" 0 0).trades = c6_state.trades ++ [tc] ∧
      tc.exit_reason = some "stop_loss" ∧ tc.pnl = some (-c6_trade.quantity) :=
  (C2_close_pnl c6_state c6_trade rfl 1.08 1.10 0 0).1

/-- C3: when a bar's low breaches the stop and its high breaches the target
in the same bar, _check_trade_exit resolves the trade as a stop_loss (the
stop check runs first), with pnl equal to minus the quantity at risk and the
active slot cleared. -/
theorem C3_stop_priority (st : BTState) (t : Trade) (c : Candle)
    (now_day now_week : Int) (hact : st.active_trade = some t)
    (hlow : c.low ≤ t.stop_loss) (hhigh : c.high ≥ t.take_profit) :
    _check_trade_exit st c now_day now_week =
      _close_trade st t.stop_loss "stop_loss" now_day now_week ∧
    (_check_trade_exit st c now_day now_week).active_trade = none ∧
    ∃ tc, (_check_trade_exit st c now_day now_week).trades = st.trades ++ [tc] ∧
      tc.exit_reason = some "stop_loss" ∧ tc.pnl = some (-t.quantity) := by
  have hstep : _check_trade_exit st c now_day now_week =
      _close_trade st t.stop_loss "stop_loss" now_day now_week := by
    simp only [_check_trade_exit, hact, if_pos hlow]
  refine ⟨hstep, ?_, ?_⟩
  · rw [hstep]
    simp only [_close_trade, hact]
  · rw [hstep]
    simp only [_close_trade, hact]
    exact ⟨_, rfl, by simp, by simp⟩

/-- C3 witness: the concrete bar c3_candle pierces both sides of c6_trade
and the engine closes it as a stop_loss with pnl -100. -/
theorem C3_witness :
    (_check_trade_exit c6_state c3_candle 0 0).active_trade = none ∧
    ∃ tc, (_check_trade_exit c6_state c3_candle 0 0).trades = c6_state.trades ++ [tc] ∧
      tc.exit_reason = some "stop_loss" ∧ tc.pnl = some (-c6_trade.quantity) := by
  have h := C3_stop_priority c6_state c6_trade c3_candle 0 0 rfl
    (by norm_num [c3_candle, c6_trade]) (by norm_num [c3_candle, c6_trade])
  exact ⟨h.2.1, h.2.2⟩

set_option maxRecDepth 4000 in
unseal Rat.add Rat.mul Rat.sub Rat.inv Rat.ofScientific in
/-- C6: calculate_position_size returns the dollar amount at risk, namely
account balance times risk percent over 100, independent of the entry-to-stop
distance, whenever that distance is nonzero; record_trade_outcome keeps the
risk amount equal to that formula on the updated balance; and concretely a
10000 balance at 1 percent with entry 1.0850 and stop 1.0800 risks exactly
100, so a stop hit loses 100 and a target hit at RR 3 gains 200. -/
theorem C6_position_size (balance riskPct entry stop : ℚ) (now_day now_week : Int)
    (h : entry ≠ stop) :
    calculate_position_size (mkEnhancedRiskManager balance riskPct 1.5 3 2 [] now_day now_week)
      entry stop = balance * riskPct / 100 ∧
    (∀ rm : EnhancedRiskManager, rm.risk_amount = rm.account_balance * rm.risk_per_trade / 100 →
      ∀ e s, e ≠ s →
        calculate_position_size rm e s = rm.account_balance * rm.risk_per_trade / 100) ∧
    (∀ rm pnl d w, (record_trade_outcome rm pnl d w).risk_amount =
      (record_trade_outcome rm pnl d w).account_balance *
        (record_trade_outcome rm pnl d w).risk_per_trade / 100) ∧
    calculate_position_size (mkEnhancedRiskManager 10000 1 1.5 3 2 [] 0 0) 1.0850 1.0800 = 100 ∧
    (∃ tc, (_close_trade c6_state 1.08 "stop_loss" now_day now_week).trades = [tc] ∧
      tc.pnl = some (-100)) ∧
    (∃ tc, (_close_trade c6_state 1.10 "take_profit" now_day now_week).trades = [tc] ∧
      tc.pnl = some 200) := by
  have hps : ∀ rm : EnhancedRiskManager, ∀ e s : ℚ, e ≠ s →
      calculate_position_size rm e s = rm.risk_amount := by
    intro rm e s hes
    unfold calculate_position_size
    rw [if_neg (by simpa [sub_eq_zero] using hes)]
  refine ⟨hps _ entry stop h, ?_, ?_, ?_, ?_, ?_⟩
  · intro rm hra e s hes
    rw [hps rm e s hes, hra]
  · intro rm pnl d w
    rfl
  · rw [hps _ _ _ (by norm_num)]
    norm_num [mkEnhancedRiskManager]
  · exact ⟨_, rfl, by decide⟩
  · exact ⟨_, rfl, by decide⟩

/-- C6 witness: the 50-pip concrete signal on a fresh 10000-balance manager
risks exactly 100 dollars. -/
theorem C6_witness :
    calculate_position_size (mkEnhancedRiskManager 10000 1 1.5 3 2 [] 0 0) 1.0850 1.0800
      = 10000 * 1 / 100 :=
  (C6_position_size 10000 1 1.0850 1.0800 0 0 (by norm_num)).1

/-- C7: a degenerate signal with zero risk distance is rejected at entry:
calculate_position_size returns 0 when entry equals stop, _open_trade returns
none whenever the computed position size is nonpositive, and for such a
signal the open attempt leaves the engine state unchanged. -/
theorem C7_zero_risk_rejected (rm0 : EnhancedRiskManager) (entry : ℚ) :
    calculate_position_size rm0 entry entry = 0 ∧
    (∀ rm sym (sig : SMCEntrySignal) c i b,
      calculate_position_size rm sig.entry_price sig.stop_loss ≤ 0 →
      _open_trade rm sym sig c i b = none) ∧
    (∀ (st : BTState) sym (sig : SMCEntrySignal) c i,
      sig.entry_price = sig.stop_loss →
      _open_trade st.rm sym sig c i st.current_balance = none ∧
      try_open st sym sig c i = st) := by
  refine ⟨?_, ?_, ?_⟩
  · simp [calculate_position_size]
  · intro rm sym sig c i b hle
    unfold _open_trade
    dsimp only
    by_cases hv : (validate_trade sig.entry_price sig.stop_loss sig.target_price).all = true
    · rw [if_neg (not_not_intro hv), if_pos hle]
    · rw [if_pos hv]
  · intro st sym sig c i hes
    have hv := validate_trade_all_false_of_eq _ _ sig.target_price hes
    have hopen : _open_trade st.rm sym sig c i st.current_balance = none := by
      unfold _open_trade
      dsimp only
      rw [hv]
      simp
    refine ⟨hopen, ?_⟩
    unfold try_open
    split
    · rw [hopen]
    · rfl

/-- C7 witness: the concrete degenerate signal c7_sig is rejected and the
engine state c6_state is untouched by the open attempt. -/
theorem C7_witness :
    _open_trade c6_state.rm "EURUSD" c7_sig c3_candle 5 c6_state.current_balance = none ∧
    try_open c6_state "EURUSD" c7_sig c3_candle 5 = c6_state :=
  (C7_zero_risk_rejected c9_rm 1.1).2.2 c6_state "EURUSD" c7_sig c3_candle 5 rfl

/-- C5 counterexample: on the literal 3-bar window of the scenario, with
bar 0 high 1.1000 and bar 2 low 1.1050, identify_fair_value_gap returns
none, because its scan range(len-3, max(len-5, 1), -1) is empty for a
3-element list. -/
theorem C5_counterexample :
    identify_fair_value_gap [c5_bar0, c5_bar1, c5_bar2] = none := rfl

set_option maxRecDepth 4000 in
unseal Rat.add Rat.mul Rat.sub Rat.inv Rat.ofScientific in
/-- C5 amended: the detector ignores series of fewer than 5 bars (so the
literal 3-bar call of the scenario returns none), but on a series of at
least 5 bars whose last three form the scenario pattern, with bar 0 high
1.1000 and bar 2 low 1.1050 and the gap above 0.1 percent of price, it
returns the bullish gap with bottom 1.1000 and top 1.1050. -/
theorem C5_fvg_amended :
    (∀ candles : List Candle, candles.length ≤ 4 → identify_fair_value_gap candles = none) ∧
    identify_fair_value_gap c5_five = some (1.1000, 1.1050, EntryZoneType.fvg) := by
  constructor
  · intro candles hlen
    rcases candles with _ | ⟨a, _ | ⟨b, _ | ⟨c, _ | ⟨d, _ | ⟨e, rest⟩⟩⟩⟩⟩
    · rfl
    · rfl
    · rfl
    · rfl
    · rfl
    · exfalso
      simp only [List.length_cons] at hlen
      omega
  · decide

/-- C5 amended witness: the detector does return none on a concrete
4-bar series ending in the gap pattern. -/
theorem C5_witness :
    identify_fair_value_gap [c5_pad, c5_bar0, c5_bar1, c5_bar2] = none :=
  C5_fvg_amended.1 [c5_pad, c5_bar0, c5_bar1, c5_bar2] (by simp)

/-- Fields read by the weekly checks are untouched by a daily reset. -/
theorem reset_daily_limits_weekly_fields (rm : EnhancedRiskManager) (d : Int) :
    (reset_daily_limits rm d).weekly_pnl = rm.weekly_pnl ∧
    (reset_daily_limits rm d).account_balance = rm.account_balance ∧
    (reset_daily_limits rm d).max_weekly_loss = rm.max_weekly_loss ∧
    (reset_daily_limits rm d).weekly_reset_week = rm.weekly_reset_week := by
  unfold reset_daily_limits
  split <;> exact ⟨rfl, rfl, rfl, rfl⟩

/-- Fields read by the daily checks are untouched by a weekly reset. -/
theorem reset_weekly_limits_daily_fields (rm : EnhancedRiskManager) (w : Int) :
    (reset_weekly_limits rm w).daily_pnl = rm.daily_pnl ∧
    (reset_weekly_limits rm w).account_balance = rm.account_balance ∧
    (reset_weekly_limits rm w).max_daily_loss = rm.max_daily_loss ∧
    (reset_weekly_limits rm w).daily_trades_count = rm.daily_trades_count ∧
    (reset_weekly_limits rm w).max_trades_per_day = rm.max_trades_per_day := by
  unfold reset_weekly_limits
  split <;> exact ⟨rfl, rfl, rfl, rfl, rfl⟩

set_option maxRecDepth 4000 in
unseal Rat.add Rat.mul Rat.sub Rat.inv Rat.ofScientific in
/-- C9 counterexample: a risk-manager state whose daily loss cap is hit
(can_open_trade reports daily_limit_ok false) does not stop the backtest
engine: _open_trade still returns a trade for a valid signal, because the
engine never consults can_open_trade. -/
theorem C9_counterexample :
    (can_open_trade c9_rm 0 0 600).2.daily_limit_ok = false ∧
    (_open_trade c9_rm "EURUSD" c9_signal spikeCandle 100 10000).isSome = true := by
  exact ⟨by decide, by decide⟩

/-- C9 amended: while a daily loss, weekly loss or daily trade-count cap is
hit, the risk manager's can_open_trade reports the corresponding check false
until the next daily or weekly rollover resets the counters; an already-open
position's exit handling never reads those counters; but the backtest
engine's _open_trade never consults can_open_trade - it depends on the risk
manager only through risk_amount - so hitting the caps does not block new
backtest entries. -/
theorem C9_caps_amended :
    (∀ (rm : EnhancedRiskManager) (d w : Int) (m : ℕ), d ≤ rm.daily_reset_day →
      rm.account_balance * rm.max_daily_loss / 100 ≤ |rm.daily_pnl| →
      (can_open_trade rm d w m).2.daily_limit_ok = false) ∧
    (∀ (rm : EnhancedRiskManager) (d w : Int) (m : ℕ), w ≤ rm.weekly_reset_week →
      rm.account_balance * rm.max_weekly_loss / 100 ≤ |rm.weekly_pnl| →
      (can_open_trade rm d w m).2.weekly_limit_ok = false) ∧
    (∀ (rm : EnhancedRiskManager) (d w : Int) (m : ℕ), d ≤ rm.daily_reset_day →
      rm.max_trades_per_day ≤ rm.daily_trades_count →
      (can_open_trade rm d w m).2.daily_trades_ok = false) ∧
    (∀ (rm : EnhancedRiskManager) (d w : Int) (m : ℕ), rm.daily_reset_day < d →
      0 < rm.account_balance * rm.max_daily_loss / 100 →
      (can_open_trade rm d w m).2.daily_limit_ok = true) ∧
    (∀ (rm : EnhancedRiskManager) (d w : Int) (m : ℕ), rm.weekly_reset_week < w →
      0 < rm.account_balance * rm.max_weekly_loss / 100 →
      (can_open_trade rm d w m).2.weekly_limit_ok = true) ∧
    (∀ (rm rm2 : EnhancedRiskManager) sym (sig : SMCEntrySignal) c i b,
      rm.risk_amount = rm2.risk_amount →
      _open_trade rm sym sig c i b = _open_trade rm2 sym sig c i b) ∧
    (∀ (st : BTState) t c (d w : Int), st.active_trade = some t →
      (_check_trade_exit st c d w).active_trade =
        (if c.low ≤ t.stop_loss ∨ t.take_profit ≤ c.high then none else some t)) := by
  refine ⟨?_, ?_, ?_, ?_, ?_, ?_, ?_⟩
  · intro rm d w m hd hcap
    have h1 : reset_daily_limits rm d = rm := by
      unfold reset_daily_limits
      rw [if_neg (not_lt.mpr hd)]
    unfold can_open_trade
    dsimp only
    rw [h1, (reset_weekly_limits_daily_fields rm w).1,
      (reset_weekly_limits_daily_fields rm w).2.1,
      (reset_weekly_limits_daily_fields rm w).2.2.1]
    simp only [decide_eq_false_iff_not, not_lt]
    exact hcap
  · intro rm d w m hw hcap
    have h1 : reset_weekly_limits (reset_daily_limits rm d) w = reset_daily_limits rm d := by
      unfold reset_weekly_limits
      rw [if_neg (not_lt.mpr (le_trans hw
        (le_of_eq (reset_daily_limits_weekly_fields rm d).2.2.2.symm)))]
    unfold can_open_trade
    dsimp only
    rw [h1, (reset_daily_limits_weekly_fields rm d).1,
      (reset_daily_limits_weekly_fields rm d).2.1,
      (reset_daily_limits_weekly_fields rm d).2.2.1]
    simp only [decide_eq_false_iff_not, not_lt]
    exact hcap
  · intro rm d w m hd hcap
    have h1 : reset_daily_limits rm d = rm := by
      unfold reset_daily_limits
      rw [if_neg (not_lt.mpr hd)]
    unfold can_open_trade
    dsimp only
    rw [h1, (reset_weekly_limits_daily_fields rm w).2.2.2.1,
      (reset_weekly_limits_daily_fields rm w).2.2.2.2]
    simp only [decide_eq_false_iff_not, not_lt]
    exact hcap
  · intro rm d w m hd hpos
    have h1 : reset_daily_limits rm d =
        { rm with daily_pnl := 0, daily_trades_count := 0, daily_reset_day := d } := by
      unfold reset_daily_limits
      rw [if_pos hd]
    unfold can_open_trade
    dsimp only
    rw [h1]
    rw [(reset_weekly_limits_daily_fields _ w).1,
      (reset_weekly_limits_daily_fields _ w).2.1,
      (reset_weekly_limits_daily_fields _ w).2.2.1]
    simp only [decide_eq_true_eq, abs_zero]
    exact hpos
  · intro rm d w m hw hpos
    have h1 : (reset_daily_limits rm d).weekly_reset_week = rm.weekly_reset_week :=
      (reset_daily_limits_weekly_fields rm d).2.2.2
    unfold can_open_trade
    dsimp only
    unfold reset_weekly_limits
    rw [h1, if_pos hw]
    dsimp only
    rw [(reset_daily_limits_weekly_fields rm d).2.1,
      (reset_daily_limits_weekly_fields rm d).2.2.1]
    simp only [decide_eq_true_eq, abs_zero]
    exact hpos
  · intro rm rm2 sym sig c i b h
    simp only [_open_trade, calculate_position_size, h]
  · intro st t c d w hact
    simp only [_check_trade_exit, hact]
    by_cases h1 : c.low ≤ t.stop_loss
    · rw [if_pos h1, if_pos (Or.inl h1)]
      simp only [_close_trade, hact]
    · by_cases h2 : c.high ≥ t.take_profit
      · rw [if_neg h1, if_pos h2, if_pos (Or.inr h2)]
        simp only [_close_trade, hact]
      · rw [if_neg h1, if_neg h2, if_neg (not_or.mpr ⟨h1, fun hc => h2 hc⟩)]
        exact hact

set_option maxRecDepth 4000 in
unseal Rat.add Rat.mul Rat.sub Rat.inv Rat.ofScientific in
/-- C9 amended witness: the concrete cap-hit manager c9_rm reports its
daily check false, and zeroing its daily loss does not change what
_open_trade does. -/
theorem C9_witness :
    (can_open_trade c9_rm 0 0 600).2.daily_limit_ok = false ∧
    _open_trade c9_rm "EURUSD" c9_signal spikeCandle 100 10000 =
      _open_trade { c9_rm with daily_pnl := 0 } "EURUSD" c9_signal spikeCandle 100 10000 := by
  constructor
  · exact C9_caps_amended.1 c9_rm 0 0 600 (by decide) (by decide)
  · exact C9_caps_amended.2.2.2.2.2.1 c9_rm { c9_rm with daily_pnl := 0 }
      "EURUSD" c9_signal spikeCandle 100 10000 rfl

/-- The initial engine state is well-formed. -/
theorem engineInv_init (b r : ℚ) (d w : Int) : EngineInv (initBTState b r d w) := by
  constructor
  · intro t ht
    simp [initBTState] at ht
  · intro t ht
    simp [initBTState] at ht

/-- _close_trade preserves engine well-formedness. -/
theorem engineInv_close (st : BTState) (p : ℚ) (r : String) (d w : Int)
    (h : EngineInv st) : EngineInv (_close_trade st p r d w) := by
  rcases hact : st.active_trade with _ | t
  · simpa only [_close_trade, hact] using h
  · simp only [_close_trade, hact]
    constructor
    · intro t2 ht2
      rcases List.mem_append.mp ht2 with h2 | h2
      · exact h.1 t2 h2
      · rw [List.mem_singleton.mp h2]
    · intro t2 ht2
      simp at ht2

/-- _check_trade_exit preserves engine well-formedness. -/
theorem engineInv_check_exit (st : BTState) (c : Candle) (d w : Int)
    (h : EngineInv st) : EngineInv (_check_trade_exit st c d w) := by
  rcases hact : st.active_trade with _ | t
  · simpa only [_check_trade_exit, hact] using h
  · simp only [_check_trade_exit, hact]
    split
    · exact engineInv_close st t.stop_loss "stop_loss" d w h
    · split
      · exact engineInv_close st t.take_profit "take_profit" d w h
      · exact h

/-- try_open preserves engine well-formedness (a new active trade is open). -/
theorem engineInv_try_open (st : BTState) (sym : String) (sig : SMCEntrySignal)
    (c : Candle) (i : ℕ) (h : EngineInv st) : EngineInv (try_open st sym sig c i) := by
  unfold try_open
  split
  · rcases hot : _open_trade st.rm sym sig c i st.current_balance with _ | t
    · exact h
    · constructor
      · exact h.1
      · intro t2 ht2
        obtain rfl := Option.some.inj ht2
        exact (open_trade_fields _ _ _ _ _ _ _ hot).2.2.2.2.2
  · exact h

/-- One replay step preserves engine well-formedness. -/
theorem engineInv_step (sym : String) (candles : List Candle) (d w : Int)
    (st : BTState) (i : ℕ) (h : EngineInv st) :
    EngineInv (stepCandle sym candles d w st i) := by
  have h2 : EngineInv (_check_trade_exit st (candles.getD i dummyCandle) d w) :=
    engineInv_check_exit st (candles.getD i dummyCandle) d w h
  unfold stepCandle
  dsimp only
  split
  · split
    · cases hA : analyze (pySlice candles (i - 50) (i + 1)) with
      | none => simpa only [hA] using h2
      | some sig =>
        simp only [hA]
        exact engineInv_try_open _ _ _ _ _ h2
    · exact h2
  · split
    · cases hA : analyze (pySlice candles (i - 50) (i + 1)) with
      | none => simpa only [hA] using h
      | some sig =>
        simp only [hA]
        exact engineInv_try_open _ _ _ _ _ h
    · exact h

/-- Folding replay steps preserves engine well-formedness. -/
theorem engineInv_foldl (sym : String) (candles : List Candle) (d w : Int)
    (l : List ℕ) (st : BTState) (h : EngineInv st) :
    EngineInv (l.foldl (stepCandle sym candles d w) st) := by
  induction l generalizing st with
  | nil => exact h
  | cons i l ih => exact ih _ (engineInv_step sym candles d w st i h)

/-- backtest_symbol preserves engine well-formedness. -/
theorem engineInv_backtest_symbol (sym : String) (candles : List Candle)
    (start_index : ℕ) (d w : Int) (st : BTState) (h : EngineInv st) :
    EngineInv (backtest_symbol sym candles start_index d w st) :=
  engineInv_foldl sym candles d w (bsIndices candles start_index) st h

/-- The whole multi-symbol backtest preserves engine well-formedness. -/
theorem engineInv_backtest (symbols : List String)
    (data : String → Option (List Candle)) (d w : Int) (st : BTState)
    (h : EngineInv st) : EngineInv (backtest symbols data d w st) := by
  induction symbols generalizing st with
  | nil => exact h
  | cons sym rest ih =>
    show EngineInv (List.foldl _ _ _)
    rw [List.foldl_cons]
    cases hd : data sym with
    | none => simpa only [hd] using ih _ h
    | some candles =>
      simpa only [hd] using ih _ (engineInv_backtest_symbol sym candles 100 d w st h)

/-- In a well-formed state the trades list holds no open entries. -/
theorem filter_open_eq_nil (st : BTState) (h : EngineInv st) (p : Trade → Bool)
    (hp : ∀ t, t.status = "closed" → p t = false) : st.trades.filter p = [] := by
  rw [List.filter_eq_nil]
  intro t ht
  rw [hp t (h.1 t ht)]
  simp

/-- In a well-formed state at most one position per symbol is open. -/
theorem openTradesCount_le_one (st : BTState) (h : EngineInv st) (sym : String) :
    openTradesCount st sym ≤ 1 := by
  unfold openTradesCount
  rw [filter_open_eq_nil st h _ (by intro t ht; rw [ht]; simp)]
  rcases st.active_trade with _ | t
  · simp
  · dsimp only
    split
    · simp
    · simp

/-- In a well-formed state at most one position is open across all symbols. -/
theorem openCountAll_le_one (st : BTState) (h : EngineInv st) :
    openCountAll st ≤ 1 := by
  unfold openCountAll
  rw [filter_open_eq_nil st h _ (by intro t ht; rw [ht]; simp)]
  rcases st.active_trade with _ | t
  · simp
  · dsimp only
    split
    · simp
    · simp

/-- try_open never touches the closed-trades list. -/
theorem try_open_trades (st : BTState) (sym : String) (sig : SMCEntrySignal)
    (c : Candle) (i : ℕ) : (try_open st sym sig c i).trades = st.trades := by
  unfold try_open
  split
  · rcases _open_trade st.rm sym sig c i st.current_balance with _ | t
    · rfl
    · rfl
  · rfl

/-- A replay step changes the trades list exactly as its exit check does. -/
theorem stepCandle_trades_eq_check (sym : String) (candles : List Candle)
    (d w : Int) (st : BTState) (i : ℕ) :
    (stepCandle sym candles d w st i).trades =
    (if st.active_trade.isSome then
      _check_trade_exit st (candles.getD i dummyCandle) d w else st).trades := by
  unfold stepCandle
  dsimp only
  split
  · split
    · cases hA : analyze (pySlice candles (i - 50) (i + 1)) with
      | none => simp only [hA]
      | some sig =>
        simp only [hA]
        exact try_open_trades _ _ _ _ _
    · rfl
  · split
    · cases hA : analyze (pySlice candles (i - 50) (i + 1)) with
      | none => simp only [hA]
      | some sig =>
        simp only [hA]
        exact try_open_trades _ _ _ _ _
    · rfl

/-- Closing the active trade appends exactly one closed record carrying the
trade's own symbol and the given exit reason. -/
theorem close_appends (st : BTState) (t : Trade) (p : ℚ) (r : String) (d w : Int)
    (hact : st.active_trade = some t) :
    ∃ tc, (_close_trade st p r d w).trades = st.trades ++ [tc] ∧
      tc.symbol = t.symbol ∧ tc.status = "closed" ∧ tc.exit_reason = some r := by
  simp only [_close_trade, hact]
  exact ⟨_, rfl, rfl, rfl, rfl⟩

/-- An exit check either keeps the trades list or appends one closed record
with the active trade's symbol. -/
theorem check_exit_trades (st : BTState) (c : Candle) (d w : Int) :
    (_check_trade_exit st c d w).trades = st.trades ∨
    ∃ tc, (_check_trade_exit st c d w).trades = st.trades ++ [tc] ∧
      tc.status = "closed" := by
  rcases hact : st.active_trade with _ | t
  · exact Or.inl (by simp only [_check_trade_exit, hact])
  · simp only [_check_trade_exit, hact]
    split
    · obtain ⟨tc, h1, _, h3, _⟩ := close_appends st t t.stop_loss "stop_loss" d w hact
      exact Or.inr ⟨tc, h1, h3⟩
    · split
      · obtain ⟨tc, h1, _, h3, _⟩ := close_appends st t t.take_profit "take_profit" d w hact
        exact Or.inr ⟨tc, h1, h3⟩
      · exact Or.inl rfl

/-- A replay step either keeps the trades list or appends one closed record. -/
theorem stepCandle_trades (sym : String) (candles : List Candle) (d w : Int)
    (st : BTState) (i : ℕ) :
    (stepCandle sym candles d w st i).trades = st.trades ∨
    ∃ tc, (stepCandle sym candles d w st i).trades = st.trades ++ [tc] ∧
      tc.status = "closed" := by
  rw [stepCandle_trades_eq_check]
  split
  · exact check_exit_trades st (candles.getD i dummyCandle) d w
  · exact Or.inl rfl

/-- A step on a bar that pierces neither the stop nor the target of the
active trade leaves the whole engine state unchanged: no new trade opens
while one is active. -/
theorem stepCandle_id_of_no_exit (sym : String) (candles : List Candle)
    (d w : Int) (st : BTState) (i : ℕ) (t : Trade)
    (hact : st.active_trade = some t)
    (hlow : ¬ (candles.getD i dummyCandle).low ≤ t.stop_loss)
    (hhigh : ¬ (candles.getD i dummyCandle).high ≥ t.take_profit) :
    stepCandle sym candles d w st i = st := by
  have hck : _check_trade_exit st (candles.getD i dummyCandle) d w = st := by
    simp only [_check_trade_exit, hact, if_neg hlow, if_neg hhigh]
  unfold stepCandle
  dsimp only
  rw [hact]
  simp only [Option.isSome_some, if_true, hck, hact]
  simp

/-- A step on a bar whose low pierces the active trade's stop closes it as a
stop_loss and appends it under its own symbol, whatever symbol is replaying. -/
theorem stepCandle_closes_carried (sym : String) (candles : List Candle)
    (d w : Int) (st : BTState) (i : ℕ) (t : Trade)
    (hact : st.active_trade = some t)
    (hlow : (candles.getD i dummyCandle).low ≤ t.stop_loss) :
    ∃ tc, (stepCandle sym candles d w st i).trades = st.trades ++ [tc] ∧
      tc.symbol = t.symbol ∧ tc.status = "closed" ∧ tc.exit_reason = some "stop_loss" := by
  obtain ⟨tc, h1, h2, h3, h4⟩ :=
    close_appends st t t.stop_loss "stop_loss" d w hact
  refine ⟨tc, ?_, h2, h3, h4⟩
  rw [stepCandle_trades_eq_check]
  rw [hact]
  simp only [Option.isSome_some, if_true]
  rw [show _check_trade_exit st (candles.getD i dummyCandle) d w =
    _close_trade st t.stop_loss "stop_loss" d w from by
      simp only [_check_trade_exit, hact, if_pos hlow]]
  exact h1

/-- C1: throughout a backtest_symbol replay at most one position per symbol
is recorded open at any step boundary; a step on a bar that does not close
the active trade changes nothing (so a new trade is opened only when no
active trade exists); and the trades list only ever grows by already-closed
records (the active slot is cleared by the same close that appends). -/
theorem C1_single_position (st : BTState) (hInv : EngineInv st) (symbol : String)
    (candles : List Candle) (start_index : ℕ) (now_day now_week : Int) :
    (∀ l1 l2, bsIndices candles start_index = l1 ++ l2 →
      ∀ sym, openTradesCount (l1.foldl (stepCandle symbol candles now_day now_week) st) sym ≤ 1) ∧
    (∀ i t, st.active_trade = some t →
      ¬ (candles.getD i dummyCandle).low ≤ t.stop_loss →
      ¬ (candles.getD i dummyCandle).high ≥ t.take_profit →
      stepCandle symbol candles now_day now_week st i = st) ∧
    (∀ i, (stepCandle symbol candles now_day now_week st i).trades = st.trades ∨
      ∃ tc, (stepCandle symbol candles now_day now_week st i).trades = st.trades ++ [tc] ∧
        tc.status = "closed") := by
  refine ⟨?_, ?_, ?_⟩
  · intro l1 l2 hsplit sym
    exact openTradesCount_le_one _ (engineInv_foldl symbol candles now_day now_week l1 st hInv) sym
  · intro i t hact hlow hhigh
    exact stepCandle_id_of_no_exit symbol candles now_day now_week st i t hact hlow hhigh
  · intro i
    exact stepCandle_trades symbol candles now_day now_week st i

/-- C1 witness: after one replay step from a fresh engine on a one-bar
series, at most one EURUSD position is open. -/
theorem C1_witness :
    openTradesCount
      ([0].foldl (stepCandle "EURUSD" [flatCandle 0] 0 0) (initBTState 10000 1 0 0))
      "EURUSD" ≤ 1 :=
  (C1_single_position (initBTState 10000 1 0 0) (engineInv_init 10000 1 0 0)
    "EURUSD" [flatCandle 0] 0 0 0).1 [0] [] rfl "EURUSD"

/-- C10: the engine has one active-trade slot shared by every symbol: at
most one position is open across all symbols at any point of the
multi-symbol backtest; the state (including the active slot) at the end of
one symbol's replay is the state the next symbol's replay starts from; and
a carried open trade is exit-checked against the current symbol's candles,
closing under its own original symbol. -/
theorem C10_shared_slot :
    (∀ symbols (data : String → Option (List Candle)) (d w : Int) (st : BTState),
      EngineInv st → EngineInv (backtest symbols data d w st) ∧
        openCountAll (backtest symbols data d w st) ≤ 1) ∧
    (∀ symbols l1 l2 (data : String → Option (List Candle)) (d w : Int) (st : BTState),
      symbols = l1 ++ l2 →
      backtest symbols data d w st = backtest l2 data d w (backtest l1 data d w st)) ∧
    (∀ (st : BTState) t sym candles (i : ℕ) (d w : Int), st.active_trade = some t →
      (candles.getD i dummyCandle).low ≤ t.stop_loss →
      ∃ tc, (stepCandle sym candles d w st i).trades = st.trades ++ [tc] ∧
        tc.symbol = t.symbol ∧ tc.status = "closed" ∧ tc.exit_reason = some "stop_loss") ∧
    (∀ (st : BTState) sym candles (start_index : ℕ) (d w : Int) l1 l2, EngineInv st →
      bsIndices candles start_index = l1 ++ l2 →
      openCountAll (l1.foldl (stepCandle sym candles d w) st) ≤ 1) := by
  refine ⟨?_, ?_, ?_, ?_⟩
  · intro symbols data d w st h
    exact ⟨engineInv_backtest symbols data d w st h,
      openCountAll_le_one _ (engineInv_backtest symbols data d w st h)⟩
  · intro symbols l1 l2 data d w st hsplit
    subst hsplit
    unfold backtest
    exact List.foldl_append _ _ _ _
  · intro st t sym candles i d w hact hlow
    exact stepCandle_closes_carried sym candles d w st i t hact hlow
  · intro st sym candles start_index d w l1 l2 h hsplit
    exact openCountAll_le_one _ (engineInv_foldl sym candles d w l1 st h)

set_option maxRecDepth 4000 in
unseal Rat.add Rat.mul Rat.sub Rat.inv Rat.ofScientific in
/-- C10 witness: the open EURUSD trade held in c6_state is stop-closed by
the first bar of a GBPUSD replay, and the closed record keeps symbol
EURUSD. -/
theorem C10_witness :
    ∃ tc, (stepCandle "GBPUSD" [c3_candle] 0 0 c6_state 0).trades = c6_state.trades ++ [tc] ∧
      tc.symbol = c6_trade.symbol ∧ tc.status = "closed" ∧ tc.exit_reason = some "stop_loss" :=
  C10_shared_slot.2.2.1 c6_state c6_trade "GBPUSD" [c3_candle] 0 0 0 rfl (by decide)

/-- Every signal the composer emits stores the risk-reward ratio computed as
reward distance over risk distance, and that ratio clears the 1.5 floor. -/
theorem generate_entry_signal_rr (candles : List Candle) (s : SMCEntrySignal)
    (h : generate_entry_signal candles = some s) : SignalRRSpec s := by
  unfold generate_entry_signal at h
  split at h
  · exact absurd h (by simp)
  · split at h
    · exact absurd h (by simp)
    · dsimp only at h
      split at h
      · exact absurd h (by simp)
      · split at h
        · exact absurd h (by simp)
        · split at h
          · -- long entry branch (structure type higher_high)
            split at h
            · split at h
              · exact absurd h (by simp)
              · rename_i hguard
                split at h
                · exact absurd h (by simp)
                · obtain rfl := Option.some.inj h
                  exact ⟨rfl, not_lt.mp hguard⟩
            · split at h
              · exact absurd h (by simp)
              · rename_i hguard
                norm_num at hguard
          · -- short entry branch
            split at h
            · split at h
              · exact absurd h (by simp)
              · rename_i hguard
                split at h
                · exact absurd h (by simp)
                · obtain rfl := Option.some.inj h
                  exact ⟨rfl, not_lt.mp hguard⟩
            · split at h
              · exact absurd h (by simp)
              · rename_i hguard
                norm_num at hguard

/-- The initial engine state satisfies the risk-reward bookkeeping. -/
theorem tradeRRInv_init (b r : ℚ) (d w : Int) : TradeRRInv (initBTState b r d w) := by
  constructor
  · intro t ht
    simp [initBTState] at ht
  · intro t ht
    simp [initBTState] at ht

/-- _close_trade preserves the risk-reward bookkeeping (a closed record
keeps its entry, stop, target and ratio). -/
theorem tradeRRInv_close (st : BTState) (p : ℚ) (r : String) (d w : Int)
    (h : TradeRRInv st) : TradeRRInv (_close_trade st p r d w) := by
  rcases hact : st.active_trade with _ | t
  · simpa only [_close_trade, hact] using h
  · simp only [_close_trade, hact]
    constructor
    · intro t2 ht2
      rcases List.mem_append.mp ht2 with h2 | h2
      · exact h.1 t2 h2
      · rw [List.mem_singleton.mp h2]
        exact h.2 t hact
    · intro t2 ht2
      simp at ht2

/-- _check_trade_exit preserves the risk-reward bookkeeping. -/
theorem tradeRRInv_check_exit (st : BTState) (c : Candle) (d w : Int)
    (h : TradeRRInv st) : TradeRRInv (_check_trade_exit st c d w) := by
  rcases hact : st.active_trade with _ | t
  · simpa only [_check_trade_exit, hact] using h
  · simp only [_check_trade_exit, hact]
    split
    · exact tradeRRInv_close st t.stop_loss "stop_loss" d w h
    · split
      · exact tradeRRInv_close st t.take_profit "take_profit" d w h
      · exact h

/-- try_open on a well-bookkept signal preserves the invariant: the opened
trade copies the signal's entry, stop, target and ratio. -/
theorem tradeRRInv_try_open (st : BTState) (sym : String) (sig : SMCEntrySignal)
    (c : Candle) (i : ℕ) (hsig : SignalRRSpec sig) (h : TradeRRInv st) :
    TradeRRInv (try_open st sym sig c i) := by
  unfold try_open
  split
  · rcases hot : _open_trade st.rm sym sig c i st.current_balance with _ | t
    · exact h
    · constructor
      · exact h.1
      · intro t2 ht2
        obtain rfl := Option.some.inj ht2
        obtain ⟨_, hrr, he, hs, htp, _⟩ := open_trade_fields _ _ _ _ _ _ _ hot
        constructor
        · rw [hrr, he, hs, htp]
          exact hsig.1
        · rw [hrr]
          exact hsig.2
  · exact h

/-- One replay step preserves the risk-reward bookkeeping. -/
theorem tradeRRInv_step (sym : String) (candles : List Candle) (d w : Int)
    (st : BTState) (i : ℕ) (h : TradeRRInv st) :
    TradeRRInv (stepCandle sym candles d w st i) := by
  have h2 : TradeRRInv (_check_trade_exit st (candles.getD i dummyCandle) d w) :=
    tradeRRInv_check_exit st (candles.getD i dummyCandle) d w h
  unfold stepCandle
  dsimp only
  split
  · split
    · cases hA : analyze (pySlice candles (i - 50) (i + 1)) with
      | none => simpa only [hA] using h2
      | some sig =>
        simp only [hA]
        exact tradeRRInv_try_open _ _ _ _ _ (generate_entry_signal_rr _ _ hA) h2
    · exact h2
  · split
    · cases hA : analyze (pySlice candles (i - 50) (i + 1)) with
      | none => simpa only [hA] using h
      | some sig =>
        simp only [hA]
        exact tradeRRInv_try_open _ _ _ _ _ (generate_entry_signal_rr _ _ hA) h
    · exact h

/-- Folding replay steps preserves the risk-reward bookkeeping. -/
theorem tradeRRInv_foldl (sym : String) (candles : List Candle) (d w : Int)
    (l : List ℕ) (st : BTState) (h : TradeRRInv st) :
    TradeRRInv (l.foldl (stepCandle sym candles d w) st) := by
  induction l generalizing st with
  | nil => exact h
  | cons i l ih => exact ih _ (tradeRRInv_step sym candles d w st i h)

/-- The whole multi-symbol backtest preserves the risk-reward bookkeeping. -/
theorem tradeRRInv_backtest (symbols : List String)
    (data : String → Option (List Candle)) (d w : Int) (st : BTState)
    (h : TradeRRInv st) : TradeRRInv (backtest symbols data d w st) := by
  induction symbols generalizing st with
  | nil => exact h
  | cons sym rest ih =>
    show TradeRRInv (List.foldl _ _ _)
    rw [List.foldl_cons]
    cases hd : data sym with
    | none => simpa only [hd] using ih _ h
    | some candles =>
      simpa only [hd] using ih _
        (tradeRRInv_foldl sym candles d w (bsIndices candles 100) st h)

/-- C4: every trade a full backtest records satisfies risk_reward_ratio =
abs(take_profit - entry_price) / abs(entry_price - stop_loss) with that
ratio at least the 1.5 floor the engine and the composer both enforce, and
the signal composer never emits a signal whose stored ratio is below 1.5 or
differs from the reward-over-risk quotient. -/
theorem C4_rr_invariant (symbols : List String)
    (data : String → Option (List Candle)) (balance riskPct : ℚ)
    (now_day now_week : Int) :
    (∀ t ∈ (backtest symbols data now_day now_week
        (initBTState balance riskPct now_day now_week)).trades, TradeRRSpec t) ∧
    (∀ candles s, generate_entry_signal candles = some s → SignalRRSpec s) := by
  constructor
  · exact (tradeRRInv_backtest symbols data now_day now_week _
      (tradeRRInv_init balance riskPct now_day now_week)).1
  · intro candles s h
    exact generate_entry_signal_rr candles s h

set_option maxRecDepth 10000 in
unseal Rat.add Rat.mul Rat.sub Rat.inv Rat.ofScientific in
/-- C4 witness: the demo replay records a concrete closed trade (entry 102,
stop 99.8, target 106.4) whose stored ratio 2 equals 4.4 / 2.2 and clears
the floor. -/
theorem C4_witness :
    demoTrade ∈ (backtest ["EURUSD"] demoData 0 0 (initBTState 10000 1 0 0)).trades ∧
    TradeRRSpec demoTrade := by
  have hmem : demoTrade ∈ (backtest ["EURUSD"] demoData 0 0 (initBTState 10000 1 0 0)).trades := by
    decide
  exact ⟨hmem, (C4_rr_invariant ["EURUSD"] demoData 10000 1 0 0).1 demoTrade hmem⟩

/-- The equity loop only advances on closed trades: it equals the plain
P&L accumulation over the closed subsequence. -/
theorem equityFold_eq_accPnl (ts : List Trade) (b : ℚ) :
    equityFold ts b = accPnl (ts.filter (fun t => t.status == "closed")) b := by
  induction ts generalizing b with
  | nil => rfl
  | cons t ts ih =>
    by_cases h : t.status = "closed"
    · have hb : (t.status == "closed") = true := by simp [h]
      simp only [equityFold, accPnl, List.filter_cons, hb, if_pos h, if_true]
      rw [ih]
    · have hb : (t.status == "closed") = false := by simp [h]
      simp only [equityFold, List.filter_cons, hb, if_neg h]
      simp only [Bool.false_eq_true, if_false]
      exact ih b

/-- accPnl keeps the length of its input. -/
theorem accPnl_length (cs : List Trade) (b : ℚ) :
    (accPnl cs b).length = cs.length := by
  induction cs generalizing b with
  | nil => rfl
  | cons t ts ih =>
    simp only [accPnl, List.length_cons, ih]

/-- Each accumulated equity point is the previous point plus the pnl of the
corresponding trade. -/
theorem accPnl_index (cs : List Trade) (b : ℚ) (k : ℕ) (a c : ℚ) (t : Trade)
    (h1 : (b :: accPnl cs b).get? k = some a)
    (h2 : (b :: accPnl cs b).get? (k + 1) = some c)
    (h3 : cs.get? k = some t) : c = a + t.pnl.getD 0 := by
  induction cs generalizing b k with
  | nil => exact absurd h3 (by simp)
  | cons t0 ts ih =>
    cases k with
    | zero =>
      obtain rfl := Option.some.inj h1
      obtain rfl := Option.some.inj h3
      simp only [accPnl, List.get?] at h2
      exact (Option.some.inj h2).symm
    | succ k =>
      simp only [accPnl, List.get?] at h1 h2 h3
      exact ih (b + t0.pnl.getD 0) k h1 h2 h3

/-- ddFold computes, at each index, the running-peak drawdown formula. -/
theorem ddFold_get (es : List ℚ) (p : ℚ) (k : ℕ) (e d : ℚ)
    (h1 : es.get? k = some e) (h2 : (ddFold es p).get? k = some d) :
    d = (if 0 < List.foldl max p (es.take (k + 1)) then
      (List.foldl max p (es.take (k + 1)) - e) /
        List.foldl max p (es.take (k + 1)) * 100 else 0) := by
  induction es generalizing p k with
  | nil => exact absurd h1 (by simp)
  | cons x xs ih =>
    have hp1 : (if x > p then x else p) = max p x := by
      rcases le_or_lt x p with hle | hlt
      · rw [if_neg (not_lt.mpr hle), max_eq_left hle]
      · rw [if_pos hlt, max_eq_right (le_of_lt hlt)]
    cases k with
    | zero =>
      obtain rfl := Option.some.inj h1
      simp only [ddFold, List.get?] at h2
      obtain rfl := (Option.some.inj h2).symm
      simp only [List.take, List.foldl]
      rw [hp1]
    | succ k =>
      simp only [ddFold, List.get?] at h1 h2
      have := ih (if x > p then x else p) k h1 h2
      rw [this, hp1]
      simp only [List.take, List.foldl]

/-- Every drawdown value the loop produces is nonnegative. -/
theorem ddFold_nonneg (es : List ℚ) (p : ℚ) : ∀ d ∈ ddFold es p, 0 ≤ d := by
  induction es generalizing p with
  | nil => intro d hd; simp [ddFold] at hd
  | cons x xs ih =>
    intro d hd
    simp only [ddFold, List.mem_cons] at hd
    rcases hd with rfl | hd
    · rcases le_or_lt x p with hle | hlt
      · rw [if_neg (not_lt.mpr hle)]
        split
        · rename_i hpos
          exact mul_nonneg (div_nonneg (sub_nonneg.mpr hle) (le_of_lt hpos)) (by norm_num)
        · exact le_refl 0
      · rw [if_pos hlt]
        split
        · rw [sub_self]
          simp
        · exact le_refl 0
    · exact ih _ d hd

/-- A fold of max only ever grows its accumulator. -/
theorem le_foldl_max (l : List ℚ) (a b : ℚ) (h : a ≤ b) :
    a ≤ List.foldl max b l := by
  induction l generalizing b with
  | nil => exact h
  | cons x l ih => exact ih (max b x) (le_trans h (le_max_left b x))

/-- C8: the equity curve starts at the engine's account balance and adds one
point per closed trade in entry-time order, each equal to the previous point
plus that trade's pnl; each drawdown value is the running-peak formula
(peak - point) / peak * 100 (guarded to 0 by the code for a nonpositive
peak, which cannot happen when the account balance is positive) and is
nonnegative. -/
theorem C8_equity_drawdown (st : BTState) :
    (_calculate_equity_curve st).head? = some st.account_balance ∧
    (_calculate_equity_curve st).length = (closedSortedTrades st).length + 1 ∧
    (∀ k a b t, (_calculate_equity_curve st).get? k = some a →
      (_calculate_equity_curve st).get? (k + 1) = some b →
      (closedSortedTrades st).get? k = some t →
      b = a + t.pnl.getD 0) ∧
    (∀ k e d, (_calculate_equity_curve st).get? k = some e →
      (_calculate_drawdown st).get? k = some d →
      d = (if 0 < runningPeak (_calculate_equity_curve st) k then
        (runningPeak (_calculate_equity_curve st) k - e) /
          runningPeak (_calculate_equity_curve st) k * 100 else 0)) ∧
    (∀ k e d, 0 < st.account_balance →
      (_calculate_equity_curve st).get? k = some e →
      (_calculate_drawdown st).get? k = some d →
      d = (runningPeak (_calculate_equity_curve st) k - e) /
        runningPeak (_calculate_equity_curve st) k * 100) ∧
    (∀ d ∈ _calculate_drawdown st, 0 ≤ d) := by
  have hc4 : ∀ k e d, (_calculate_equity_curve st).get? k = some e →
      (_calculate_drawdown st).get? k = some d →
      d = (if 0 < runningPeak (_calculate_equity_curve st) k then
        (runningPeak (_calculate_equity_curve st) k - e) /
          runningPeak (_calculate_equity_curve st) k * 100 else 0) := by
    intro k e d h1 h2
    have e2 : _calculate_equity_curve st =
        st.account_balance :: equityFold (sortByEntryTime st.trades) st.account_balance := rfl
    have e3 : _calculate_drawdown st =
        ddFold (st.account_balance :: equityFold (sortByEntryTime st.trades) st.account_balance)
          st.account_balance := rfl
    rw [e2] at h1
    rw [e3] at h2
    have hdd := ddFold_get _ _ k e d h1 h2
    rw [hdd, e2]
    have hF : List.foldl max st.account_balance
        ((st.account_balance :: equityFold (sortByEntryTime st.trades) st.account_balance).take (k + 1)) =
        runningPeak (st.account_balance ::
          equityFold (sortByEntryTime st.trades) st.account_balance) k := by
      show List.foldl max (max st.account_balance st.account_balance)
        ((equityFold (sortByEntryTime st.trades) st.account_balance).take k) = _
      rw [max_self]
      rfl
    rw [hF]
  refine ⟨rfl, ?_, ?_, hc4, ?_, ?_⟩
  · show (st.account_balance :: equityFold (sortByEntryTime st.trades) st.account_balance).length = _
    rw [List.length_cons, equityFold_eq_accPnl, accPnl_length]
    rfl
  · intro k a b t h1 h2 h3
    have e1 : _calculate_equity_curve st =
        st.account_balance :: accPnl (closedSortedTrades st) st.account_balance := by
      show st.account_balance :: equityFold (sortByEntryTime st.trades) st.account_balance = _
      rw [equityFold_eq_accPnl]
      rfl
    rw [e1] at h1 h2
    exact accPnl_index (closedSortedTrades st) st.account_balance k a b t h1 h2 h3
  · intro k e d hb h1 h2
    have hpos : 0 < runningPeak (_calculate_equity_curve st) k := by
      have hle : st.account_balance ≤ runningPeak (_calculate_equity_curve st) k := by
        show st.account_balance ≤ List.foldl max st.account_balance
          ((equityFold (sortByEntryTime st.trades) st.account_balance).take k)
        exact le_foldl_max _ _ _ (le_refl _)
      exact lt_of_lt_of_le hb hle
    rw [hc4 k e d h1 h2, if_pos hpos]
  · intro d hd
    exact ddFold_nonneg _ _ d hd

set_option maxRecDepth 4000 in
unseal Rat.add Rat.mul Rat.sub Rat.inv Rat.ofScientific in
/-- C8 witness: on the concrete two-trade state, the third equity point
10100 is the second point 9900 plus the pnl 200 of the later trade, and all
drawdown values are nonnegative. -/
theorem C8_witness :
    (10100 : ℚ) = 9900 + c8_tradeB.pnl.getD 0 ∧
    (∀ d ∈ _calculate_drawdown c8_state, 0 ≤ d) :=
  ⟨(C8_equity_drawdown c8_state).2.2.1 1 9900 10100 c8_tradeB
      (by decide) (by decide) (by decide),
    (C8_equity_drawdown c8_state).2.2.2.2.2⟩

end ForexBot
